import Mathlib

/-!
Verification of `src/Update_disk_space.py` (a daily disk-usage CSV recorder).

Shallow embedding notes:
- Python floats are modelled by exact rationals (`ℚ`); `f"{v:.2f}"` is
  modelled by rounding `v * 100` to the nearest integer, ties to even,
  which is how Python renders a binary float at 2 decimals.
- The OS calls (`shutil.disk_usage`, `os.makedirs`, the file open/append)
  are modelled by explicit parameters and an explicit filesystem state:
  `shutil.disk_usage` as an `Except` value, the CSV file as an
  `Option (List Row)` (`none` = the file does not exist), the output
  directory as a `Bool` flag.
- `datetime.datetime.now()` / `datetime.date.today()` are modelled by an
  explicit `Timestamp` parameter.
-/

namespace DiskSpace

/-- A wall-clock instant, as `datetime.datetime.now()` provides it
(local time, second precision). -/
structure Timestamp where
  year : ℕ
  month : ℕ
  day : ℕ
  hour : ℕ
  minute : ℕ
  second : ℕ
deriving DecidableEq

/-- The triple returned by `shutil.disk_usage` (byte counts). -/
structure DiskUsage where
  total : ℕ
  used : ℕ
  free : ℕ
deriving DecidableEq

/-- Zero-pad a number to (at least) 2 digits, as `%m`, `%d`, `%H`, `%M`,
`%S` and `isoformat` do. -/
def pad2 (n : ℕ) : String :=
  if n < 10 then "0" ++ toString n else toString n

/-- Zero-pad a number to (at least) 4 digits, as `%Y` and `isoformat` do
for the year. -/
def pad4 (n : ℕ) : String :=
  if n < 10 then "000" ++ toString n
  else if n < 100 then "00" ++ toString n
  else if n < 1000 then "0" ++ toString n
  else toString n

/-- `datetime.datetime.now().isoformat(sep=" ", timespec="seconds")`:
the local date-time rendered as `YYYY-MM-DD HH:MM:SS`. -/
def isoTimestamp (t : Timestamp) : String :=
  pad4 t.year ++ "-" ++ pad2 t.month ++ "-" ++ pad2 t.day ++ " " ++
    pad2 t.hour ++ ":" ++ pad2 t.minute ++ ":" ++ pad2 t.second

/-- `datetime.date.today().strftime("%Y%m%d")`. -/
def dateStr (t : Timestamp) : String :=
  pad4 t.year ++ pad2 t.month ++ pad2 t.day

/-- Round a rational to the nearest integer, ties to even: the rounding
Python applies to the scaled value when formatting with `:.2f`. -/
def roundHalfEven (x : ℚ) : ℤ :=
  if Int.fract x = 1 / 2 then
    if ⌊x⌋ % 2 = 0 then ⌊x⌋ else ⌊x⌋ + 1
  else round x

/-- `f"{v:.2f}"` for a non-negative value: exactly two fractional
digits. -/
def formatFixed2 (v : ℚ) : String :=
  let c : ℕ := (roundHalfEven (v * 100)).toNat
  toString (c / 100) ++ "." ++ (if c % 100 < 10 then "0" else "") ++ toString (c % 100)

/-- The unit list the loop in `_bytes_to_human` walks through; `EB` is
the fallback after the list is exhausted. -/
def humanUnits : List String := ["B", "KB", "MB", "GB", "TB", "PB"]

/-- The loop body of `_bytes_to_human`: return at the first unit where
the running value is below 1024, else divide by 1024 and advance. -/
def bytesToHumanAux (v : ℚ) : List String → String
  | [] => formatFixed2 v ++ " EB"
  | u :: rest =>
    if v < 1024 then formatFixed2 v ++ " " ++ u
    else bytesToHumanAux (v / 1024) rest

/-- `_bytes_to_human(n)`. -/
def bytes_to_human (n : ℕ) : String :=
  bytesToHumanAux (n : ℚ) humanUnits

/-- How many times the `_bytes_to_human` loop divides before it emits,
given the remaining unit count: the index of the chosen unit in
`humanUnits ++ ["EB"]`. -/
def unitSteps (v : ℚ) : ℕ → ℕ
  | 0 => 0
  | k + 1 => if v < 1024 then 0 else unitSteps (v / 1024) k + 1

/-- The index of the unit `_bytes_to_human` chooses for `n`, in the list
`B, KB, MB, GB, TB, PB, EB`. -/
def chosenUnit (n : ℕ) : ℕ :=
  unitSteps (n : ℚ) humanUnits.length

/-- Does a path begin with the separator (POSIX absolute path)? -/
def startsSlash (p : String) : Bool :=
  match p.data with
  | [] => false
  | c :: _ => c = '/'

/-- Does a path end with the separator? -/
def endsSlash (p : String) : Bool :=
  match p.data.getLast? with
  | some c => c = '/'
  | none => false

/-- `os.path.join(a, b)` (POSIX rules): an absolute second component
replaces the first; otherwise the parts are joined with exactly one
separator. -/
def joinPath (a b : String) : String :=
  if startsSlash b then b
  else if a = "" then b
  else if endsSlash a then a ++ b
  else a ++ "/" ++ b

/-- A path is absolute iff it starts with the separator. -/
def isAbsolutePath (p : String) : Bool := startsSlash p

/-- `free_pct = (free / total * 100.0) if total else 0.0` (line 65). -/
def free_pct (free total : ℕ) : ℚ :=
  if total = 0 then 0 else (free : ℚ) / (total : ℚ) * 100

/-- The `fieldnames` list passed to `csv.DictWriter` (lines 80-90). -/
def fieldnames : List String :=
  ["timestamp", "path", "total_bytes", "used_bytes", "free_bytes",
   "free_percent", "total_human", "used_human", "free_human"]

/-- The `row` dict built at lines 68-78, in source order, as an
association list. -/
def rowDict (ts : Timestamp) (path_to_check : String) (u : DiskUsage) :
    List (String × String) :=
  [("timestamp", isoTimestamp ts),
   ("path", path_to_check),
   ("total_bytes", toString u.total),
   ("used_bytes", toString u.used),
   ("free_bytes", toString u.free),
   ("free_percent", formatFixed2 (free_pct u.free u.total)),
   ("total_human", bytes_to_human u.total),
   ("used_human", bytes_to_human u.used),
   ("free_human", bytes_to_human u.free)]

/-- `csv.DictWriter.writerow`: emit the dict's values in `fieldnames`
order. -/
def dictWriterRow (names : List String) (d : List (String × String)) :
    List String :=
  names.map (fun k => (((d.find? (fun p => p.1 = k)).map Prod.snd).getD ""))

/-- `csv.DictWriter.writeheader`: the header row is the `fieldnames`
themselves. -/
def headerRow : List String := fieldnames

/-- The data row `update_daily_disk_csv` writes for one invocation. -/
def dataRow (ts : Timestamp) (path_to_check : String) (u : DiskUsage) :
    List String :=
  dictWriterRow fieldnames (rowDict ts path_to_check u)

/-- Lines 92-98: `write_header = not os.path.exists(filepath)`; open for
append, write the header iff `write_header`, then the data row. The file
is `none` when it does not exist, `some rows` when it exists with those
rows (possibly none). -/
def appendRecord (file : Option (List (List String))) (row : List String) :
    List (List String) :=
  match file with
  | none => [headerRow, row]
  | some rows => rows ++ [row]

/-- The filesystem state the recorder touches: whether the output
directory exists, and the day's CSV file. -/
structure FsState where
  dirExists : Bool
  file : Option (List (List String))
deriving DecidableEq

/-- `disk_usage_{date_str}.csv` placed under `out_dir` (lines 59-60). -/
def filePathFor (out_dir date_str : String) : String :=
  joinPath out_dir ("disk_usage_" ++ date_str ++ ".csv")

/-- Default resolution at entry (lines 50-54): `path_to_check` falls
back to the home directory, `out_dir` to `<home>/disk_reports`. -/
def resolveArgs (home : String) (path_to_check out_dir : Option String) :
    String × String :=
  (path_to_check.getD home, out_dir.getD (joinPath home "disk_reports"))

/-- `update_daily_disk_csv` after default resolution (lines 56-100),
with the environment made explicit: `stat` is what `shutil.disk_usage`
does for `path_to_check` (`.error` = it raises), `ts` the current local
time, `s` the filesystem state. Returns the propagated error or the
returned file path, together with the new filesystem state. `os.makedirs`
runs first, then `shutil.disk_usage`; a raise there propagates before the
file is opened, so the CSV file is untouched in the error case. -/
def update_daily_disk_csv (stat : Except String DiskUsage) (ts : Timestamp)
    (path_to_check out_dir date_str : String) (s : FsState) :
    Except String String × FsState :=
  let s1 : FsState := { s with dirExists := true }
  let filepath := filePathFor out_dir date_str
  match stat with
  | .error e => (.error e, s1)
  | .ok u =>
    (.ok filepath,
     { s1 with file := some (appendRecord s1.file (dataRow ts path_to_check u)) })

/-- Repeated same-day invocations: each call succeeds with its own
timestamp and usage sample, against the same `out_dir` and date. -/
def recordMany (path_to_check out_dir date_str : String) :
    List (Timestamp × DiskUsage) → FsState → FsState
  | [], s => s
  | c :: rest, s =>
    recordMany path_to_check out_dir date_str rest
      (update_daily_disk_csv (.ok c.2) c.1 path_to_check out_dir date_str s).2

/-! ### Helper lemmas -/

theorem roundHalfEven_natCast (n : ℕ) : roundHalfEven ((n : ℤ) : ℚ) = n := by
  unfold roundHalfEven
  rw [Int.fract_intCast]
  norm_num

theorem formatFixed2_natCast (n : ℕ) :
    formatFixed2 (n : ℚ) = toString n ++ ".00" := by
  unfold formatFixed2
  have h1 : ((n : ℚ) * 100) = (((n * 100 : ℕ) : ℤ) : ℚ) := by push_cast; ring
  rw [h1, roundHalfEven_natCast]
  have h2 : ((n * 100 : ℕ) : ℤ).toNat = n * 100 := Int.toNat_natCast _
  rw [h2]
  have h3 : n * 100 / 100 = n := Nat.mul_div_cancel n (by norm_num)
  have h4 : n * 100 % 100 = 0 := Nat.mul_mod_left n 100
  simp only [h3, h4]
  apply String.ext
  simp [String.data_append]
  rfl

theorem formatFixed2_zero : formatFixed2 0 = "0.00" := by
  have := formatFixed2_natCast 0
  simpa using this

theorem dataRow_eq (ts : Timestamp) (p : String) (u : DiskUsage) :
    dataRow ts p u =
      [isoTimestamp ts, p, toString u.total, toString u.used, toString u.free,
       formatFixed2 (free_pct u.free u.total), bytes_to_human u.total,
       bytes_to_human u.used, bytes_to_human u.free] := rfl

theorem dash_mem_isoTimestamp (ts : Timestamp) : '-' ∈ (isoTimestamp ts).data := by
  unfold isoTimestamp
  simp [String.data_append]

theorem isoTimestamp_ne (ts : Timestamp) : isoTimestamp ts ≠ "timestamp" := by
  intro h
  have := dash_mem_isoTimestamp ts
  rw [h] at this
  revert this
  decide

theorem dataRow_ne_header (ts : Timestamp) (p : String) (u : DiskUsage) :
    dataRow ts p u ≠ headerRow := by
  rw [dataRow_eq]
  intro h
  have : isoTimestamp ts = "timestamp" := by
    injection h with h1 _
  exact isoTimestamp_ne ts this

theorem append_assoc_str (a b c : String) : a ++ b ++ c = a ++ (b ++ c) := by
  apply String.ext
  simp [String.data_append]

theorem startsSlash_append (a x : String) (h : a ≠ "") :
    startsSlash (a ++ x) = startsSlash a := by
  unfold startsSlash
  have hd : a.data ≠ [] := by
    intro hnil
    exact h (by apply String.ext; simpa using hnil)
  rw [String.data_append]
  cases hdata : a.data with
  | nil => exact absurd hdata hd
  | cons c t => rfl

theorem append_ne_empty_right (a b : String) (h : b.data ≠ []) : a ++ b ≠ "" := by
  intro hh
  have := congrArg String.data hh
  rw [String.data_append] at this
  simp at this
  exact h this.2

theorem diskUsageName_not_abs (d : String) :
    startsSlash ("disk_usage_" ++ d ++ ".csv") = false := by
  unfold startsSlash
  rw [String.data_append, String.data_append]
  rfl

theorem joinPath_abs (od fname : String) (hf : startsSlash fname = false) :
    isAbsolutePath (joinPath od fname) = isAbsolutePath od := by
  unfold isAbsolutePath joinPath
  rw [hf]
  by_cases h0 : od = ""
  · subst h0
    simp [hf]
    rfl
  · by_cases he : endsSlash od
    · simp only [Bool.false_eq_true, if_false, if_neg h0, if_pos he]
      exact startsSlash_append od fname h0
    · simp only [Bool.false_eq_true, if_false, if_neg h0, if_neg he]
      rw [startsSlash_append (od ++ "/") fname
            (append_ne_empty_right od "/" (by simp)),
          startsSlash_append od "/" h0]

theorem unitSteps_mono :
    ∀ (k : ℕ) (v w : ℚ), v ≤ w → unitSteps v k ≤ unitSteps w k := by
  intro k
  induction k with
  | zero => intro v w _; simp [unitSteps]
  | succ k ih =>
    intro v w hvw
    by_cases hv : v < 1024
    · simp only [unitSteps, if_pos hv]
      exact Nat.zero_le _
    · have hw : ¬ w < 1024 := fun hw => hv (lt_of_le_of_lt hvw hw)
      simp only [unitSteps, if_neg hv, if_neg hw]
      have := ih (v / 1024) (w / 1024)
        ((div_le_div_iff_of_pos_right (by norm_num)).2 hvw)
      omega

theorem bytesToHumanAux_eq :
    ∀ (l : List String) (v : ℚ),
      bytesToHumanAux v l
        = formatFixed2 (v / 1024 ^ unitSteps v l.length) ++ " " ++
            ((l ++ ["EB"]).getD (unitSteps v l.length) "") := by
  intro l
  induction l with
  | nil =>
    intro v
    simp only [bytesToHumanAux, List.length_nil, unitSteps, pow_zero, div_one,
      List.nil_append, List.getD]
    rw [append_assoc_str]
    rfl
  | cons u rest ih =>
    intro v
    by_cases hv : v < 1024
    · simp only [bytesToHumanAux, if_pos hv, List.length_cons, unitSteps,
        pow_zero, div_one, List.cons_append, List.getD]
      rfl
    · have hstep : bytesToHumanAux v (u :: rest) = bytesToHumanAux (v / 1024) rest := by
        simp [bytesToHumanAux, hv]
      have hs : unitSteps v (u :: rest).length = unitSteps (v / 1024) rest.length + 1 := by
        simp [unitSteps, hv]
      have harg : (v / 1024) / (1024 : ℚ) ^ unitSteps (v / 1024) rest.length
          = v / 1024 ^ (unitSteps (v / 1024) rest.length + 1) := by
        rw [div_div, pow_succ, mul_comm]
      rw [hstep, ih, hs, harg]
      simp [List.getD]

theorem recordMany_file (p od d : String) (calls : List (Timestamp × DiskUsage)) :
    ∀ (s : FsState) (rows : List (List String)), s.file = some rows →
      (recordMany p od d calls s).file
        = some (rows ++ calls.map fun c => dataRow c.1 p c.2) := by
  induction calls with
  | nil => intro s rows h; simpa [recordMany] using h
  | cons c rest ih =>
    intro s rows h
    have hstep : (update_daily_disk_csv (.ok c.2) c.1 p od d s).2.file
        = some (rows ++ [dataRow c.1 p c.2]) := by
      simp [update_daily_disk_csv, h, appendRecord]
    have h2 := ih _ _ hstep
    simpa [recordMany] using h2

/-! ### Claim theorems -/

/-- C1: calling the recorder N ≥ 1 times on the same date with the same
output directory yields a file whose lines are exactly the header
followed by the N data rows, the header written once as the first line
(and appearing nowhere among the data rows). -/
theorem same_day_header_once (p od d : String) (de : Bool)
    (c : Timestamp × DiskUsage) (calls : List (Timestamp × DiskUsage)) :
    (recordMany p od d (c :: calls) ⟨de, none⟩).file
      = some (headerRow :: (c :: calls).map fun x => dataRow x.1 p x.2)
    ∧ headerRow ∉ (c :: calls).map fun x => dataRow x.1 p x.2 := by
  constructor
  · have hstep : (update_daily_disk_csv (.ok c.2) c.1 p od d ⟨de, none⟩).2.file
        = some [headerRow, dataRow c.1 p c.2] := rfl
    have h2 := recordMany_file p od d calls _ _ hstep
    simpa [recordMany] using h2
  · intro hmem
    rw [List.mem_map] at hmem
    obtain ⟨x, _, hx⟩ := hmem
    exact dataRow_ne_header x.1 p x.2 hx

/-- C2: every data row has its fields in the exact order timestamp,
path, total_bytes, used_bytes, free_bytes, free_percent, total_human,
used_human, free_human, and the timestamp field is the local date-time
rendered as `YYYY-MM-DD HH:MM:SS` (zero-padded fields, second precision,
space separator). -/
theorem row_order_and_timestamp (ts : Timestamp) (p : String) (u : DiskUsage) :
    dataRow ts p u =
      [isoTimestamp ts, p, toString u.total, toString u.used, toString u.free,
       formatFixed2 (free_pct u.free u.total), bytes_to_human u.total,
       bytes_to_human u.used, bytes_to_human u.free]
    ∧ isoTimestamp ts =
        pad4 ts.year ++ "-" ++ pad2 ts.month ++ "-" ++ pad2 ts.day ++ " " ++
          pad2 ts.hour ++ ":" ++ pad2 ts.minute ++ ":" ++ pad2 ts.second :=
  ⟨rfl, rfl⟩

/-- C3: the free_percent field is `free/total*100` rounded to 2 decimals,
with the `total = 0` case defined as `0.00` by the guard, no division
error. -/
theorem free_percent_formula (ts : Timestamp) (p : String) (u : DiskUsage) :
    (dataRow ts p u)[5]? = some (formatFixed2 (free_pct u.free u.total))
    ∧ free_pct u.free u.total
        = (if u.total = 0 then 0 else (u.free : ℚ) / (u.total : ℚ) * 100)
    ∧ formatFixed2 (free_pct u.free 0) = "0.00" := by
  refine ⟨rfl, rfl, ?_⟩
  have h : free_pct u.free 0 = 0 := rfl
  rw [h, formatFixed2_zero]

/-- C8: when the filesystem-statistics call raises, the error propagates
unchanged (no retry, single attempt) and the daily CSV file is untouched:
not created if absent, contents unchanged if present. -/
theorem stat_error_propagates (e : String) (ts : Timestamp) (p od d : String)
    (s : FsState) :
    (update_daily_disk_csv (.error e) ts p od d s).1 = .error e
    ∧ (update_daily_disk_csv (.error e) ts p od d s).2.file = s.file :=
  ⟨rfl, rfl⟩

/-- C9: omitted arguments default to the home directory and to
`<home>/disk_reports`, and the target file is always
`<out_dir>/disk_usage_<YYYYMMDD>.csv` for the current local date, which
is also the path the recorder reports. -/
theorem defaults_and_file_naming (home od p : String) (t ts : Timestamp)
    (u : DiskUsage) (s : FsState) :
    resolveArgs home none none = (home, joinPath home "disk_reports")
    ∧ filePathFor od (dateStr t)
        = joinPath od
            ("disk_usage_" ++ (pad4 t.year ++ pad2 t.month ++ pad2 t.day) ++ ".csv")
    ∧ (update_daily_disk_csv (.ok u) ts p od (dateStr t) s).1
        = .ok (filePathFor od (dateStr t)) :=
  ⟨rfl, rfl, rfl⟩

/-- C10: the header decision looks only at file existence: an existing
file (in particular an existing empty file) gets the data row appended
with no header written, so the file can hold data rows and no header
line. -/
theorem header_skipped_when_file_exists (ts : Timestamp) (p od d : String)
    (de : Bool) (u : DiskUsage) (rows : List (List String)) :
    (update_daily_disk_csv (.ok u) ts p od d ⟨de, some rows⟩).2.file
      = some (rows ++ [dataRow ts p u])
    ∧ (update_daily_disk_csv (.ok u) ts p od d ⟨de, some []⟩).2.file
      = some [dataRow ts p u]
    ∧ headerRow ∉ [dataRow ts p u] := by
  refine ⟨rfl, rfl, ?_⟩
  rw [List.mem_singleton]
  exact Ne.symm (dataRow_ne_header ts p u)

/-- C4: for every byte count below 1024 the human-readable conversion is
the count itself with two zero decimals and the unit `B`. -/
theorem small_bytes_human (n : ℕ) (h : n < 1024) :
    bytes_to_human n = toString n ++ ".00 B" := by
  have hq : (n : ℚ) < 1024 := by exact_mod_cast h
  have h1 : bytes_to_human n = formatFixed2 (n : ℚ) ++ " " ++ "B" := by
    simp [bytes_to_human, humanUnits, bytesToHumanAux, hq]
  rw [h1, formatFixed2_natCast]
  simp only [append_assoc_str]
  rfl

/-- Witness for C4 at the concrete input 7. -/
theorem small_bytes_human_check : bytes_to_human 7 = "7.00 B" := by
  rw [small_bytes_human 7 (by norm_num)]
  rfl

/-- C5: the unit `_bytes_to_human` picks (its index in
`B, KB, MB, GB, TB, PB, EB`) never shrinks as the byte count grows, and
that index is exactly the unit appearing in the produced string. -/
theorem human_unit_monotone (m n : ℕ) (h : m < n) :
    chosenUnit m ≤ chosenUnit n
    ∧ ∀ k : ℕ, bytes_to_human k
        = formatFixed2 ((k : ℚ) / 1024 ^ chosenUnit k) ++ " " ++
            ((humanUnits ++ ["EB"]).getD (chosenUnit k) "") := by
  constructor
  · exact unitSteps_mono _ _ _ (by exact_mod_cast le_of_lt h)
  · intro k
    exact bytesToHumanAux_eq humanUnits (k : ℚ)

/-- Witness for C5 at the concrete inputs 512 and 1048576. -/
theorem human_unit_monotone_check : chosenUnit 512 ≤ chosenUnit 1048576 :=
  (human_unit_monotone 512 1048576 (by norm_num)).1

/-- C6: under the OS report invariant `free ≤ total`, the free
percentage lies in `[0, 100]` whenever `total > 0`, and is exactly
`0.00` when `total = 0`. -/
theorem free_percent_bounds (u : DiskUsage) (hfree : u.free ≤ u.total) :
    (0 < u.total →
      0 ≤ free_pct u.free u.total ∧ free_pct u.free u.total ≤ 100)
    ∧ (u.total = 0 →
      free_pct u.free u.total = 0
      ∧ formatFixed2 (free_pct u.free u.total) = "0.00") := by
  constructor
  · intro hpos
    have hne : u.total ≠ 0 := Nat.pos_iff_ne_zero.1 hpos
    rw [free_pct, if_neg hne]
    have h1 : (u.free : ℚ) ≤ (u.total : ℚ) := by exact_mod_cast hfree
    have h2 : (0 : ℚ) < (u.total : ℚ) := by exact_mod_cast hpos
    constructor
    · positivity
    · calc (u.free : ℚ) / (u.total : ℚ) * 100
          ≤ 1 * 100 := by
            apply mul_le_mul_of_nonneg_right ((div_le_one h2).2 h1)
            norm_num
        _ = 100 := one_mul 100
  · intro h0
    rw [free_pct, if_pos h0]
    exact ⟨rfl, formatFixed2_zero⟩

/-- Witness for C6 at the concrete report total = 100, free = 60. -/
theorem free_percent_bounds_check :
    0 ≤ free_pct 60 100 ∧ free_pct 60 100 ≤ 100 :=
  (free_percent_bounds ⟨100, 40, 60⟩ (by norm_num)).1 (by norm_num)

/-- C7 counterexample: with the relative output directory `"rel"` the
recorder returns `"rel/disk_usage_20260105.csv"`, which is not an
absolute path, so the returned path is not absolute/resolved. -/
theorem record_relative_path_counterexample :
    (update_daily_disk_csv (.ok ⟨1000, 400, 600⟩) ⟨2026, 1, 5, 9, 3, 7⟩
        "/data" "rel" "20260105" ⟨false, none⟩).1
      = .ok "rel/disk_usage_20260105.csv"
    ∧ isAbsolutePath "rel/disk_usage_20260105.csv" = false :=
  ⟨rfl, rfl⟩

/-- C7 amended: the recorder returns `out_dir` joined with the dated
file name, exactly as given; the result is absolute precisely when
`out_dir` itself is absolute (as the defaults are). -/
theorem returned_path_is_join (ts : Timestamp) (p od d : String)
    (u : DiskUsage) (s : FsState) :
    (update_daily_disk_csv (.ok u) ts p od d s).1
      = .ok (joinPath od ("disk_usage_" ++ d ++ ".csv"))
    ∧ isAbsolutePath (joinPath od ("disk_usage_" ++ d ++ ".csv"))
      = isAbsolutePath od := by
  refine ⟨rfl, ?_⟩
  exact joinPath_abs od _ (diskUsageName_not_abs d)

end DiskSpace
